import Mathlib

/-!
Verification development for the PO-workflow administrative front end.

The repository is a browser-side client: DOM rendering, string-templated
HTML, and fetch wrappers around a REST API.  The client-side logic
(selection lists, input parsing, HTML escaping, request guards, card
rendering) is embedded directly from the JavaScript source.  The
server-side External-PO approval workflow is not part of the repository;
following the specification document, it is modelled here from the
spec's own words (each such definition carries a doc comment starting
with "Modelled from the spec:").

Conventions: machine strings are Lean `String`, monetary amounts are
`Rat` (the sources treat them as exact decimal values), timestamps are
`Nat`, JavaScript `null`/cancelled prompts are `Option.none`, and
fallible operations return `Except WorkflowError`.
-/

/-! ## Client-side selection state (bulk-assignment / external-PO screens) -/

/-- One element of the client-side `selectedPOLines` array: the object
pushed by the checkbox handlers, holding `po_id`, `po_number` and
`po_line` strings taken from the checkbox attributes. -/
structure SelEntry where
  po_id : String
  po_number : String
  po_line : String
deriving DecidableEq

/-- Embedding of `togglePOLineSelection(checkbox)` from the enhanced
bulk-assignment module: on check, push the entry only when no entry with
the same `po_id` is present; on uncheck, filter out every entry with
that `po_id`.  The DOM row-class updates are presentation only and are
not modelled. -/
def togglePOLineSelection (checked : Bool) (entry : SelEntry) (sel : List SelEntry) : List SelEntry :=
  if checked then
    if sel.any (fun po => po.po_id == entry.po_id) then sel else sel ++ [entry]
  else
    sel.filter (fun po => po.po_id != entry.po_id)

/-- Embedding of `togglePOLine(checkbox)` from `frontend/js/external-pos.js`:
identical guarded push / filter logic on the `externalSelectedPOLines`
array. -/
def togglePOLine (checked : Bool) (entry : SelEntry) (sel : List SelEntry) : List SelEntry :=
  if checked then
    if sel.any (fun po => po.po_id == entry.po_id) then sel else sel ++ [entry]
  else
    sel.filter (fun po => po.po_id != entry.po_id)

/-- Embedding of `togglePOSelection(checkbox)` from the unified
assignment module: same guarded push / filter logic on `selectedPOLines`. -/
def togglePOSelection (checked : Bool) (entry : SelEntry) (sel : List SelEntry) : List SelEntry :=
  if checked then
    if sel.any (fun po => po.po_id == entry.po_id) then sel else sel ++ [entry]
  else
    sel.filter (fun po => po.po_id != entry.po_id)

/-- Apply a sequence of checkbox toggle events with `togglePOLineSelection`,
starting from the empty selection. -/
def runToggleSelections (ops : List (Bool × SelEntry)) : List SelEntry :=
  ops.foldl (fun sel op => togglePOLineSelection op.1 op.2 sel) []

/-- Apply a sequence of checkbox toggle events with `togglePOLine`,
starting from the empty selection. -/
def runToggleLines (ops : List (Bool × SelEntry)) : List SelEntry :=
  ops.foldl (fun sel op => togglePOLine op.1 op.2 sel) []

/-- Apply a sequence of checkbox toggle events with `togglePOSelection`,
starting from the empty selection. -/
def runTogglePOSelections (ops : List (Bool × SelEntry)) : List SelEntry :=
  ops.foldl (fun sel op => togglePOSelection op.1 op.2 sel) []

/-- The three toggle handlers are line-for-line identical. -/
theorem togglePOLine_eq : togglePOLine = togglePOLineSelection := rfl

/-- The three toggle handlers are line-for-line identical. -/
theorem togglePOSelection_eq : togglePOSelection = togglePOLineSelection := rfl

theorem toggle_preserves_nodup (checked : Bool) (entry : SelEntry) (sel : List SelEntry)
    (h : (sel.map SelEntry.po_id).Nodup) :
    ((togglePOLineSelection checked entry sel).map SelEntry.po_id).Nodup := by
  unfold togglePOLineSelection
  by_cases hc : checked = true
  · simp only [hc, if_true]
    by_cases hp : sel.any (fun po => po.po_id == entry.po_id) = true
    · simp [hp, h]
    · simp only [hp, if_false, Bool.false_eq_true]
      rw [List.map_append]
      simp only [List.map_cons, List.map_nil]
      rw [List.nodup_append]
      refine ⟨h, List.nodup_singleton _, ?_⟩
      intro a ha hb
      simp only [List.mem_singleton] at hb
      subst hb
      rw [List.mem_map] at ha
      obtain ⟨po, hpo, hid⟩ := ha
      simp only [List.any_eq_true, not_exists] at hp
      exact hp po ⟨hpo, by simp [hid]⟩
  · simp only [Bool.not_eq_true] at hc
    simp only [hc, Bool.false_eq_true, if_false]
    exact h.sublist (List.Sublist.map SelEntry.po_id (List.filter_sublist sel))

theorem runToggle_nodup (ops : List (Bool × SelEntry)) :
    ((runToggleSelections ops).map SelEntry.po_id).Nodup := by
  unfold runToggleSelections
  suffices h : ∀ (sel : List SelEntry), (sel.map SelEntry.po_id).Nodup →
      ((ops.foldl (fun sel op => togglePOLineSelection op.1 op.2 sel) sel).map SelEntry.po_id).Nodup by
    exact h [] (by simp)
  induction ops with
  | nil => intro sel h; simpa using h
  | cons op rest ih =>
    intro sel h
    exact ih _ (toggle_preserves_nodup op.1 op.2 sel h)

/-- C9: for every sequence of checkbox toggle events starting from the
empty selection, none of the three client selection lists ever holds two
entries with the same `po_id`: checking adds an entry only when absent,
unchecking removes every entry with that id. -/
theorem selection_list_no_duplicate_po_id (ops : List (Bool × SelEntry)) :
    ((runToggleSelections ops).map SelEntry.po_id).Nodup ∧
    ((runToggleLines ops).map SelEntry.po_id).Nodup ∧
    ((runTogglePOSelections ops).map SelEntry.po_id).Nodup := by
  refine ⟨runToggle_nodup ops, ?_, ?_⟩
  · have h : runToggleLines ops = runToggleSelections ops := by
      unfold runToggleLines runToggleSelections
      rw [togglePOLine_eq]
    rw [h]; exact runToggle_nodup ops
  · have h : runTogglePOSelections ops = runToggleSelections ops := by
      unfold runTogglePOSelections runToggleSelections
      rw [togglePOSelection_eq]
    rw [h]; exact runToggle_nodup ops

/-! ## Map-based escapeHtml helper (config.js and the unified module) -/

/-- A JavaScript value as it reaches `escapeHtml`: `null`, `undefined`
or a string.  The function's falsy guard treats `null`, `undefined` and
the empty string alike. -/
inductive JSVal where
  | null : JSVal
  | undef : JSVal
  | str : String → JSVal
deriving DecidableEq

/-- Replacement for a single character under the regex replace of
`escapeHtml`: each of the five special characters maps to its HTML
entity, every other character is kept. -/
def escChar (c : Char) : List Char :=
  if c = '&' then ['&', 'a', 'm', 'p', ';']
  else if c = '<' then ['&', 'l', 't', ';']
  else if c = '>' then ['&', 'g', 't', ';']
  else if c = '"' then ['&', 'q', 'u', 'o', 't', ';']
  else if c = '\'' then ['&', '#', '0', '3', '9', ';']
  else [c]

/-- Character-list form of the global regex replace in `escapeHtml`. -/
def escList : List Char → List Char
  | [] => []
  | c :: rest => escChar c ++ escList rest

/-- Embedding of the map-based `escapeHtml(text)` from
`frontend/js/config.js` (duplicated in the unified assignment module):
falsy input returns the empty string, otherwise every occurrence of
one of the five special characters is replaced by its entity. -/
def escapeHtml (text : JSVal) : String :=
  match text with
  | .null => ""
  | .undef => ""
  | .str s => if s = "" then "" else ⟨escList s.data⟩

/-- Decoder used to state that `escapeHtml` output has no unescaped
special character: a bare special character or an ampersand that does
not start one of the five entities makes decoding fail. -/
def unescape (l : List Char) : Option (List Char) :=
  match l with
  | [] => some []
  | c :: rest =>
    if c = '&' then
      if rest.take 4 = ['a', 'm', 'p', ';'] then (unescape (rest.drop 4)).map (fun t => '&' :: t)
      else if rest.take 3 = ['l', 't', ';'] then (unescape (rest.drop 3)).map (fun t => '<' :: t)
      else if rest.take 3 = ['g', 't', ';'] then (unescape (rest.drop 3)).map (fun t => '>' :: t)
      else if rest.take 5 = ['q', 'u', 'o', 't', ';'] then (unescape (rest.drop 5)).map (fun t => '"' :: t)
      else if rest.take 5 = ['#', '0', '3', '9', ';'] then (unescape (rest.drop 5)).map (fun t => '\'' :: t)
      else none
    else if c = '<' ∨ c = '>' ∨ c = '"' ∨ c = '\'' then none
    else (unescape rest).map (fun t => c :: t)
termination_by l.length
decreasing_by all_goals (simp [List.length_drop]; try omega)

theorem unescape_escList (l : List Char) : unescape (escList l) = some l := by
  induction l with
  | nil =>
    simp only [escList]
    rw [unescape.eq_def]
  | cons c rest ih =>
    show unescape (escChar c ++ escList rest) = some (c :: rest)
    by_cases h1 : c = '&'
    · subst h1
      simp only [escChar, if_pos rfl, List.cons_append, List.nil_append]
      rw [unescape.eq_def]; simp [ih]
    · by_cases h2 : c = '<'
      · subst h2
        simp only [escChar]
        norm_num
        rw [unescape.eq_def]; simp [ih]
      · by_cases h3 : c = '>'
        · subst h3
          simp only [escChar]
          norm_num
          rw [unescape.eq_def]; simp [ih]
        · by_cases h4 : c = '"'
          · subst h4
            simp only [escChar]
            norm_num
            rw [unescape.eq_def]; simp [ih]
          · by_cases h5 : c = '\''
            · subst h5
              simp only [escChar]
              norm_num
              rw [unescape.eq_def]; simp [ih]
            · simp only [escChar, h1, h2, h3, h4, h5, if_false, List.singleton_append]
              rw [unescape.eq_def]
              simp only []
              rw [if_neg h1, if_neg (by simp [h2, h3, h4, h5])]
              simp [ih]

theorem escList_no_forbidden (l : List Char) (c : Char) (hc : c ∈ escList l) :
    c ≠ '<' ∧ c ≠ '>' ∧ c ≠ '"' ∧ c ≠ '\'' := by
  induction l with
  | nil => simp [escList] at hc
  | cons d rest ih =>
    rw [escList, List.mem_append] at hc
    rcases hc with hc | hc
    · unfold escChar at hc
      by_cases h1 : d = '&'
      · simp [h1] at hc; rcases hc with h | h | h | h | h <;> simp [h]
      · by_cases h2 : d = '<'
        · simp [h1, h2] at hc; rcases hc with h | h | h | h <;> simp [h]
        · by_cases h3 : d = '>'
          · simp [h1, h2, h3] at hc; rcases hc with h | h | h | h <;> simp [h]
          · by_cases h4 : d = '"'
            · simp [h1, h2, h3, h4] at hc; rcases hc with h | h | h | h | h | h <;> simp [h]
            · by_cases h5 : d = '\''
              · simp [h1, h2, h3, h4, h5] at hc; rcases hc with h | h | h | h | h | h <;> simp [h]
              · simp [h1, h2, h3, h4, h5] at hc
                subst hc
                exact ⟨h2, h3, h4, h5⟩
    · exact ih hc

theorem escList_clean_id (l : List Char)
    (h : ∀ c ∈ l, c ≠ '&' ∧ c ≠ '<' ∧ c ≠ '>' ∧ c ≠ '"' ∧ c ≠ '\'') :
    escList l = l := by
  induction l with
  | nil => rfl
  | cons c rest ih =>
    obtain ⟨h1, h2, h3, h4, h5⟩ := h c (List.mem_cons_self c rest)
    rw [escList, escChar]
    simp only [h1, h2, h3, h4, h5, if_false]
    rw [List.singleton_append, ih (fun d hd => h d (List.mem_cons_of_mem c hd))]

theorem escapeHtml_data (s : String) : (escapeHtml (.str s)).data = escList s.data := by
  unfold escapeHtml
  by_cases h : s = ""
  · subst h; rfl
  · simp [h]

/-- C10: the map-based `escapeHtml` returns the empty string on `null`,
`undefined` and the empty string; on other strings it rewrites exactly
the five special characters to their entities (clean strings pass
through unchanged, each special character becomes its entity), and the
output has no unescaped special character: it contains no raw
low-quote-apostrophe-angle character, and decoding every entity back
succeeds and recovers the input. -/
theorem escapeHtml_escapes_specials :
    escapeHtml .null = "" ∧ escapeHtml .undef = "" ∧ escapeHtml (.str "") = "" ∧
    escapeHtml (.str "&") = "&amp;" ∧ escapeHtml (.str "<") = "&lt;" ∧
    escapeHtml (.str ">") = "&gt;" ∧ escapeHtml (.str "\"") = "&quot;" ∧
    escapeHtml (.str "'") = "&#039;" ∧
    (∀ s : String, (∀ c ∈ s.data, c ≠ '&' ∧ c ≠ '<' ∧ c ≠ '>' ∧ c ≠ '"' ∧ c ≠ '\'') →
      escapeHtml (.str s) = s) ∧
    (∀ (s : String) (c : Char), c ∈ (escapeHtml (.str s)).data →
      c ≠ '<' ∧ c ≠ '>' ∧ c ≠ '"' ∧ c ≠ '\'') ∧
    (∀ s : String, unescape (escapeHtml (.str s)).data = some s.data) := by
  refine ⟨rfl, rfl, rfl, rfl, rfl, rfl, rfl, rfl, ?_, ?_, ?_⟩
  · intro s h
    unfold escapeHtml
    by_cases hs : s = ""
    · simp [hs]
    · simp only [hs, if_false]
      have := escList_clean_id s.data h
      cases s
      simp_all
  · intro s c hc
    rw [escapeHtml_data] at hc
    exact escList_no_forbidden s.data c hc
  · intro s
    rw [escapeHtml_data]
    exact unescape_escList s.data

/-- Witness for C10: a concrete evaluation discharging the clean-string
and membership hypotheses of the theorem. -/
theorem escapeHtml_escapes_specials_witness :
    escapeHtml (.str "ab") = "ab" ∧
    unescape (escapeHtml (.str "a<b&c")).data = some "a<b&c".data := by
  constructor
  · exact escapeHtml_escapes_specials.2.2.2.2.2.2.2.2.1 "ab" (by decide)
  · exact escapeHtml_escapes_specials.2.2.2.2.2.2.2.2.2.2 "a<b&c"

/-! ## Server-side workflow model

The approval workflow itself runs in the backend service, which is not
part of this repository; only its REST surface is visible here.  The
following definitions are modelled from the specification document
(sections 3, 4.2, 4.3, 4.5). -/

/-- Modelled from the spec: the error taxonomy of section 7. -/
inductive WorkflowError where
  | ValidationError : WorkflowError
  | AuthorizationError : WorkflowError
  | StateError : WorkflowError
  | NotFoundError : WorkflowError
deriving DecidableEq

/-- Modelled from the spec: ExternalPO status values of section 3,
including the optional post-approval archival state CLOSED. -/
inductive EPOStatus where
  | DRAFT : EPOStatus
  | PENDING_PD_APPROVAL : EPOStatus
  | PENDING_ADMIN_APPROVAL : EPOStatus
  | APPROVED : EPOStatus
  | REJECTED : EPOStatus
  | CLOSED : EPOStatus
deriving DecidableEq

/-- Modelled from the spec: the subcontractor response status. -/
inductive SbcStatus where
  | PENDING : SbcStatus
  | ACCEPTED : SbcStatus
  | REJECTED : SbcStatus
deriving DecidableEq

/-- Modelled from the spec: assignment status values. -/
inductive AsgStatus where
  | PENDING : AsgStatus
  | APPROVED : AsgStatus
  | REJECTED : AsgStatus
deriving DecidableEq

/-- Modelled from the spec: the two approval levels of section 4.3. -/
inductive ApprovalLevel where
  | PD : ApprovalLevel
  | ADMIN : ApprovalLevel
deriving DecidableEq

/-- Modelled from the spec: approve/reject action of the respond
operations. -/
inductive ApprovalAction where
  | APPROVE : ApprovalAction
  | REJECT : ApprovalAction
deriving DecidableEq

/-- Modelled from the spec: accept/reject action of the SBC response
stage. -/
inductive SbcAction where
  | ACCEPT : SbcAction
  | REJECT : SbcAction
deriving DecidableEq

/-- Modelled from the spec: a purchase-order line of the PO Line Pool
(section 3), with its assignment and external-PO linkage flags. -/
structure PoLine where
  po_id : String
  line_amount : Rat
  is_assigned : Bool
  assigned_to : Option String
  has_external_po : Bool
deriving DecidableEq

/-- Modelled from the spec: an Assignment record of the Assignment
Ledger (section 3). -/
structure Assignment where
  po_ids : List String
  assigned_by : String
  assigned_to : String
  notes : String
  status : AsgStatus
  rejection_reason : Option String
deriving DecidableEq

/-- Modelled from the spec: the ExternalPO aggregate of section 3. -/
structure ExternalPO where
  po_line_ids : List String
  assigned_to_sbc : String
  assignment_notes : String
  internal_notes : String
  estimated_total_amount : Rat
  status : EPOStatus
  pd_approved_by : Option String
  pd_approved_at : Option Nat
  admin_approved_by : Option String
  admin_approved_at : Option Nat
  rejection_reason : Option String
  rejected_by : Option String
  sbc_response_status : SbcStatus
  created_by : String
  submitted_at : Option Nat
deriving DecidableEq

/-- Modelled from the spec: approver capabilities (section 4.3),
`can_approve_level_1` for PD and `can_approve_level_2` for ADMIN. -/
structure Capabilities where
  can_approve_level_1 : Bool
  can_approve_level_2 : Bool
deriving DecidableEq

/-- Look a PoLine up by id in the pool. -/
def findLine (pool : List PoLine) (id : String) : Option PoLine :=
  pool.find? (fun l => l.po_id == id)

/-- Modelled from the spec: a rejection reason is missing or empty. -/
def blankReason (reason : Option String) : Bool :=
  match reason with
  | none => true
  | some s => s == ""

/-- Whether the pool line with this id is already assigned or already
has an external PO. -/
def lineTaken (pool : List PoLine) (id : String) : Bool :=
  match findLine pool id with
  | some l => l.is_assigned || l.has_external_po
  | none => false

/-- Whether the pool line with this id is currently assigned to the
given creator. -/
def assignedToCreator (pool : List PoLine) (creator : String) (id : String) : Bool :=
  match findLine pool id with
  | some l => l.is_assigned && l.assigned_to == some creator
  | none => false

/-- Whether the pool line with this id is already attached to an
external PO. -/
def hasExternal (pool : List PoLine) (id : String) : Bool :=
  match findLine pool id with
  | some l => l.has_external_po
  | none => false

/-- Sum of the line amounts of the referenced lines as currently stored
in the pool. -/
def sumAmounts (pool : List PoLine) (ids : List String) : Rat :=
  (ids.map (fun id =>
    match findLine pool id with
    | some l => l.line_amount
    | none => 0)).sum

/-- Mark every referenced line as assigned to the assignee. -/
def markAssigned (pool : List PoLine) (ids : List String) (assignee : String) : List PoLine :=
  pool.map (fun l => if l.po_id ∈ ids then { l with is_assigned := true, assigned_to := some assignee } else l)

/-- Mark every referenced line as attached to an external PO. -/
def markExternal (pool : List PoLine) (ids : List String) : List PoLine :=
  pool.map (fun l => if l.po_id ∈ ids then { l with has_external_po := true } else l)

/-- Revert the assignment flag on every referenced line. -/
def releaseLines (pool : List PoLine) (ids : List String) : List PoLine :=
  pool.map (fun l => if l.po_id ∈ ids then { l with is_assigned := false, assigned_to := none } else l)

/-- Modelled from the spec: `Assignment.create` of section 4.2 — fails
with ValidationError if po_ids is empty or any id is already assigned or
has an external PO, with NotFoundError if an id does not exist, with
AuthorizationError if the assigner lacks the capability; on success
marks every referenced line assigned and creates a PENDING assignment. -/
def Assignment.create (pool : List PoLine) (assigner : String) (canAssign : Bool)
    (po_ids : List String) (assignee : String) (notes : String) :
    Except WorkflowError (Assignment × List PoLine) :=
  if po_ids = [] then .error .ValidationError
  else if po_ids.any (fun id => (findLine pool id).isNone) then .error .NotFoundError
  else if po_ids.any (fun id => lineTaken pool id) then .error .ValidationError
  else if canAssign then
    .ok ({ po_ids := po_ids, assigned_by := assigner, assigned_to := assignee,
           notes := notes, status := .PENDING, rejection_reason := none },
         markAssigned pool po_ids assignee)
  else .error .AuthorizationError

/-- Modelled from the spec: `Assignment.respond` of section 4.2 — only
the assignee may respond, only while PENDING, REJECT requires a reason
and reverts the assignment flags; APPROVE leaves the lines assigned. -/
def Assignment.respond (a : Assignment) (pool : List PoLine) (actor : String)
    (action : ApprovalAction) (reason : Option String) :
    Except WorkflowError (Assignment × List PoLine) :=
  if actor = a.assigned_to then
    if a.status = AsgStatus.PENDING then
      match action with
      | .APPROVE => .ok ({ a with status := .APPROVED }, pool)
      | .REJECT =>
        if blankReason reason then .error .ValidationError
        else .ok ({ a with status := .REJECTED, rejection_reason := reason },
                  releaseLines pool a.po_ids)
    else .error .StateError
  else .error .AuthorizationError

/-- Modelled from the spec: `createDraft` of section 4.3 — fails with
ValidationError if po_ids is empty, any id is not currently assigned to
the creator, or any id is already attached to an external PO; computes
`estimated_total_amount` as the sum of the referenced line amounts at
creation time; marks every line attached; starts in DRAFT or directly
in PENDING_PD_APPROVAL. -/
def ExternalPO.createDraft (pool : List PoLine) (creator : String) (po_ids : List String)
    (sbc : String) (notes : String) (internalNotes : String) (asDraft : Bool) :
    Except WorkflowError (ExternalPO × List PoLine) :=
  if po_ids = [] then .error .ValidationError
  else if po_ids.any (fun id => (findLine pool id).isNone) then .error .NotFoundError
  else if po_ids.any (fun id => !(assignedToCreator pool creator id)) then .error .ValidationError
  else if po_ids.any (fun id => hasExternal pool id) then .error .ValidationError
  else
    .ok ({ po_line_ids := po_ids, assigned_to_sbc := sbc, assignment_notes := notes,
           internal_notes := internalNotes,
           estimated_total_amount := sumAmounts pool po_ids,
           status := if asDraft then .DRAFT else .PENDING_PD_APPROVAL,
           pd_approved_by := none, pd_approved_at := none,
           admin_approved_by := none, admin_approved_at := none,
           rejection_reason := none, rejected_by := none,
           sbc_response_status := .PENDING, created_by := creator, submitted_at := none },
         markExternal pool po_ids)

/-- Modelled from the spec: `submit` of section 4.3 — StateError unless
DRAFT, AuthorizationError unless the actor is the creator; transitions
to PENDING_PD_APPROVAL and stamps `submitted_at`. -/
def ExternalPO.submit (e : ExternalPO) (actor : String) (now : Nat) :
    Except WorkflowError ExternalPO :=
  if e.status = EPOStatus.DRAFT then
    if actor = e.created_by then
      .ok { e with status := .PENDING_PD_APPROVAL, submitted_at := some now }
    else .error .AuthorizationError
  else .error .StateError

/-- Modelled from the spec: the pending status a level acts on. -/
def expectedStatus : ApprovalLevel → EPOStatus
  | .PD => .PENDING_PD_APPROVAL
  | .ADMIN => .PENDING_ADMIN_APPROVAL

/-- Modelled from the spec: the capability required for a level. -/
def hasLevelCap (caps : Capabilities) : ApprovalLevel → Bool
  | .PD => caps.can_approve_level_1
  | .ADMIN => caps.can_approve_level_2

/-- Modelled from the spec: `respondApproval` of section 4.3 —
AuthorizationError without the level capability, StateError unless the
status matches the level's pending state, ValidationError on REJECT
without a reason; PD approve moves to PENDING_ADMIN_APPROVAL and stamps
the PD fields, Admin approve moves to APPROVED and stamps the Admin
fields, reject at either level moves to the terminal REJECTED state. -/
def ExternalPO.respondApproval (e : ExternalPO) (actor : String) (caps : Capabilities)
    (level : ApprovalLevel) (action : ApprovalAction) (reason : Option String) (now : Nat) :
    Except WorkflowError ExternalPO :=
  if hasLevelCap caps level then
    if e.status = expectedStatus level then
      match action with
      | .APPROVE =>
        match level with
        | .PD => .ok { e with status := .PENDING_ADMIN_APPROVAL,
                              pd_approved_by := some actor, pd_approved_at := some now }
        | .ADMIN => .ok { e with status := .APPROVED,
                                 admin_approved_by := some actor, admin_approved_at := some now }
      | .REJECT =>
        if blankReason reason then .error .ValidationError
        else .ok { e with status := .REJECTED, rejection_reason := reason,
                          rejected_by := some actor }
    else .error .StateError
  else .error .AuthorizationError

/-- Modelled from the spec: SBC `respond` of section 4.5 —
AuthorizationError unless the actor is the assigned subcontractor,
StateError unless status is APPROVED and the response is still PENDING,
ValidationError on REJECT without a reason; sets the response status. -/
def ExternalPO.sbcRespond (e : ExternalPO) (actor : String) (action : SbcAction)
    (reason : Option String) : Except WorkflowError ExternalPO :=
  if actor = e.assigned_to_sbc then
    if e.status = EPOStatus.APPROVED ∧ e.sbc_response_status = SbcStatus.PENDING then
      match action with
      | .ACCEPT => .ok { e with sbc_response_status := .ACCEPTED }
      | .REJECT =>
        if blankReason reason then .error .ValidationError
        else .ok { e with sbc_response_status := .REJECTED, rejection_reason := reason }
    else .error .StateError
  else .error .AuthorizationError

/-- A workflow operation on a single ExternalPO entity. -/
inductive WfOp where
  | submit (actor : String) (now : Nat) : WfOp
  | respond (actor : String) (caps : Capabilities) (level : ApprovalLevel)
      (action : ApprovalAction) (reason : Option String) (now : Nat) : WfOp
  | sbc (actor : String) (action : SbcAction) (reason : Option String) : WfOp

/-- Apply one workflow operation. -/
def applyOp : WfOp → ExternalPO → Except WorkflowError ExternalPO
  | .submit actor now, e => e.submit actor now
  | .respond actor caps level action reason now, e =>
      e.respondApproval actor caps level action reason now
  | .sbc actor action reason, e => e.sbcRespond actor action reason

/-- Apply one workflow operation, keeping the entity unchanged when the
operation fails (spec section 7: no partial application). -/
def runOp (op : WfOp) (e : ExternalPO) : ExternalPO :=
  match applyOp op e with
  | .ok e2 => e2
  | .error _ => e

/-- Apply a sequence of workflow operations. -/
def runOps (ops : List WfOp) (e : ExternalPO) : ExternalPO :=
  ops.foldl (fun s op => runOp op s) e

/-- The transition table of spec section 4.3. -/
def allowedPairs : List (EPOStatus × EPOStatus) :=
  [(.DRAFT, .PENDING_PD_APPROVAL),
   (.PENDING_PD_APPROVAL, .PENDING_ADMIN_APPROVAL),
   (.PENDING_PD_APPROVAL, .REJECTED),
   (.PENDING_ADMIN_APPROVAL, .APPROVED),
   (.PENDING_ADMIN_APPROVAL, .REJECTED)]

/-- The five workflow status values named by the spec's testable
property (CLOSED is outside the workflow). -/
def validStatuses : List EPOStatus :=
  [.DRAFT, .PENDING_PD_APPROVAL, .PENDING_ADMIN_APPROVAL, .APPROVED, .REJECTED]

theorem applyOp_ok_pair (op : WfOp) (e e2 : ExternalPO) (h : applyOp op e = .ok e2) :
    (e.status, e2.status) ∈ allowedPairs ∨
      (e.status = EPOStatus.APPROVED ∧ e2.status = EPOStatus.APPROVED) := by
  cases op with
  | submit actor now =>
    simp only [applyOp, ExternalPO.submit] at h
    split_ifs at h with h1 h2
    injection h with h3
    subst h3
    left
    simp [allowedPairs, h1]
  | respond actor caps level action reason now =>
    cases action with
    | APPROVE =>
      cases level with
      | PD =>
        simp only [applyOp, ExternalPO.respondApproval, expectedStatus, hasLevelCap] at h
        split_ifs at h with h1 h2
        injection h with h3
        subst h3
        left
        simp [allowedPairs, h2]
      | ADMIN =>
        simp only [applyOp, ExternalPO.respondApproval, expectedStatus, hasLevelCap] at h
        split_ifs at h with h1 h2
        injection h with h3
        subst h3
        left
        simp [allowedPairs, h2]
    | REJECT =>
      cases level with
      | PD =>
        simp only [applyOp, ExternalPO.respondApproval, expectedStatus, hasLevelCap] at h
        split_ifs at h with h1 h2 h3
        injection h with h4
        subst h4
        left
        simp [allowedPairs, h2]
      | ADMIN =>
        simp only [applyOp, ExternalPO.respondApproval, expectedStatus, hasLevelCap] at h
        split_ifs at h with h1 h2 h3
        injection h with h4
        subst h4
        left
        simp [allowedPairs, h2]
  | sbc actor action reason =>
    cases action with
    | ACCEPT =>
      simp only [applyOp, ExternalPO.sbcRespond] at h
      split_ifs at h with h1 h2
      injection h with h3
      subst h3
      right
      exact ⟨h2.1, h2.1⟩
    | REJECT =>
      simp only [applyOp, ExternalPO.sbcRespond] at h
      split_ifs at h with h1 h2 h3
      injection h with h4
      subst h4
      right
      exact ⟨h2.1, h2.1⟩

theorem applyOp_ok_status_valid (op : WfOp) (e e2 : ExternalPO) (h : applyOp op e = .ok e2) :
    e2.status ∈ validStatuses := by
  rcases applyOp_ok_pair op e e2 h with hp | ⟨h1, h2⟩
  · simp only [allowedPairs, List.mem_cons, List.not_mem_nil, or_false, Prod.mk.injEq] at hp
    rcases hp with ⟨h1, h2⟩ | ⟨h1, h2⟩ | ⟨h1, h2⟩ | ⟨h1, h2⟩ | ⟨h1, h2⟩ <;>
      simp [validStatuses, h2]
  · simp [validStatuses, h2]

theorem runOps_status_valid (ops : List WfOp) (e : ExternalPO) (he : e.status ∈ validStatuses) :
    (runOps ops e).status ∈ validStatuses := by
  unfold runOps
  induction ops generalizing e with
  | nil => simpa using he
  | cons op rest ih =>
    simp only [List.foldl_cons]
    apply ih
    unfold runOp
    cases hap : applyOp op e with
    | ok e2 => exact applyOp_ok_status_valid op e e2 hap
    | error err => simpa using he

/-- C1: every successful workflow step on an ExternalPO either follows
the transition table of spec section 4.3 exactly, or is the SBC
response stage entered from APPROVED leaving the status at APPROVED;
consequently, over any operation sequence, the status stays within the
five workflow values, and in particular no step leaves APPROVED or
REJECTED. -/
theorem external_po_status_machine :
    (∀ (op : WfOp) (e e2 : ExternalPO), applyOp op e = .ok e2 →
      (e.status, e2.status) ∈ allowedPairs ∨
        (e.status = EPOStatus.APPROVED ∧ e2.status = EPOStatus.APPROVED)) ∧
    (∀ (ops : List WfOp) (e : ExternalPO), e.status ∈ validStatuses →
      (runOps ops e).status ∈ validStatuses) :=
  ⟨applyOp_ok_pair, fun ops e he => runOps_status_valid ops e he⟩

/-- Concrete draft ExternalPO used by the workflow witnesses. -/
def draftEx : ExternalPO :=
  { po_line_ids := ["L1"], assigned_to_sbc := "sbc", assignment_notes := "",
    internal_notes := "", estimated_total_amount := 5, status := .DRAFT,
    pd_approved_by := none, pd_approved_at := none, admin_approved_by := none,
    admin_approved_at := none, rejection_reason := none, rejected_by := none,
    sbc_response_status := .PENDING, created_by := "u1", submitted_at := none }

/-- The same entity after a successful submit at time 7. -/
def submittedEx : ExternalPO :=
  { draftEx with status := .PENDING_PD_APPROVAL, submitted_at := some 7 }

/-- Witness for C1: the submit step on a concrete draft discharges the
success hypothesis and lands in the transition table. -/
theorem external_po_status_machine_witness :
    ((draftEx.status, submittedEx.status) ∈ allowedPairs ∨
      (draftEx.status = EPOStatus.APPROVED ∧ submittedEx.status = EPOStatus.APPROVED)) ∧
    (runOps [WfOp.submit "u1" 7] draftEx).status ∈ validStatuses :=
  ⟨external_po_status_machine.1 (WfOp.submit "u1" 7) draftEx submittedEx rfl,
   external_po_status_machine.2 [WfOp.submit "u1" 7] draftEx (by decide)⟩

/-! ## C2: approval timestamps are strictly sequential -/

/-- Invariant carried by every reachable ExternalPO: an Admin timestamp
implies a PD timestamp, the Admin-pending state already has the PD
timestamp, and the Admin fields are set only in the APPROVED state. -/
def InvEPO (e : ExternalPO) : Prop :=
  (e.admin_approved_at.isSome → e.pd_approved_at.isSome) ∧
  (e.status = EPOStatus.PENDING_ADMIN_APPROVAL → e.pd_approved_at.isSome) ∧
  (e.status ≠ EPOStatus.APPROVED → e.admin_approved_at = none ∧ e.admin_approved_by = none)

theorem inv_step (op : WfOp) (e e2 : ExternalPO) (hInv : InvEPO e)
    (h : applyOp op e = .ok e2) : InvEPO e2 := by
  obtain ⟨i1, i2, i3⟩ := hInv
  cases op with
  | submit actor now =>
    simp only [applyOp, ExternalPO.submit] at h
    split_ifs at h with h1 h2
    injection h with h3
    subst h3
    refine ⟨i1, by simp, fun _ => i3 (by simp [h1])⟩
  | respond actor caps level action reason now =>
    cases action with
    | APPROVE =>
      cases level with
      | PD =>
        simp only [applyOp, ExternalPO.respondApproval, expectedStatus, hasLevelCap] at h
        split_ifs at h with h1 h2
        injection h with h3
        subst h3
        refine ⟨by simp, by simp, fun _ => i3 (by simp [h2])⟩
      | ADMIN =>
        simp only [applyOp, ExternalPO.respondApproval, expectedStatus, hasLevelCap] at h
        split_ifs at h with h1 h2
        injection h with h3
        subst h3
        refine ⟨fun _ => i2 h2, by simp [i2 h2], by simp⟩
    | REJECT =>
      cases level with
      | PD =>
        simp only [applyOp, ExternalPO.respondApproval, expectedStatus, hasLevelCap] at h
        split_ifs at h with h1 h2 h3
        injection h with h4
        subst h4
        refine ⟨i1, by simp, fun _ => i3 (by simp [h2])⟩
      | ADMIN =>
        simp only [applyOp, ExternalPO.respondApproval, expectedStatus, hasLevelCap] at h
        split_ifs at h with h1 h2 h3
        injection h with h4
        subst h4
        refine ⟨i1, by simp, fun _ => i3 (by simp [h2])⟩
  | sbc actor action reason =>
    cases action with
    | ACCEPT =>
      simp only [applyOp, ExternalPO.sbcRespond] at h
      split_ifs at h with h1 h2
      injection h with h3
      subst h3
      exact ⟨i1, i2, i3⟩
    | REJECT =>
      simp only [applyOp, ExternalPO.sbcRespond] at h
      split_ifs at h with h1 h2 h3
      injection h with h4
      subst h4
      exact ⟨i1, i2, i3⟩

theorem inv_runOps (ops : List WfOp) (e : ExternalPO) (hInv : InvEPO e) :
    InvEPO (runOps ops e) := by
  unfold runOps
  induction ops generalizing e with
  | nil => simpa using hInv
  | cons op rest ih =>
    simp only [List.foldl_cons]
    apply ih
    unfold runOp
    cases hap : applyOp op e with
    | ok e2 => exact inv_step op e e2 hInv hap
    | error err => exact hInv

theorem createDraft_ok_inv (pool : List PoLine) (creator : String) (ids : List String)
    (sbc notes inotes : String) (asDraft : Bool) (e : ExternalPO) (pool2 : List PoLine)
    (h : ExternalPO.createDraft pool creator ids sbc notes inotes asDraft = .ok (e, pool2)) :
    InvEPO e := by
  simp only [ExternalPO.createDraft] at h
  split_ifs at h with h1 h2 h3 h4 h5 <;>
    (injection h with h6
     have he := congrArg Prod.fst h6
     simp at he
     subst he
     exact ⟨by simp, by simp, by simp⟩)

theorem rejected_runOp (op : WfOp) (e : ExternalPO) (hst : e.status = EPOStatus.REJECTED) :
    runOp op e = e := by
  unfold runOp
  cases hap : applyOp op e with
  | ok e2 =>
    rcases applyOp_ok_pair op e e2 hap with hp | ⟨h1, _⟩
    · rw [hst] at hp
      simp [allowedPairs] at hp
    · rw [hst] at h1
      exact absurd h1 (by simp)
  | error err => rfl

theorem rejected_runOps (ops : List WfOp) (e : ExternalPO) (hst : e.status = EPOStatus.REJECTED) :
    runOps ops e = e := by
  unfold runOps
  induction ops with
  | nil => rfl
  | cons op rest ih =>
    simp only [List.foldl_cons]
    rw [rejected_runOp op e hst]
    exact ih

/-- C2: for every ExternalPO created by `createDraft` and any sequence
of workflow operations, an Admin approval timestamp implies a PD
approval timestamp; once the status is REJECTED the Admin timestamp is
unset and every further operation leaves the entity untouched. -/
theorem admin_approval_after_pd_approval
    (pool : List PoLine) (creator : String) (ids : List String)
    (sbc notes inotes : String) (asDraft : Bool) (e : ExternalPO) (pool2 : List PoLine)
    (ops : List WfOp)
    (h : ExternalPO.createDraft pool creator ids sbc notes inotes asDraft = .ok (e, pool2)) :
    ((runOps ops e).admin_approved_at.isSome → (runOps ops e).pd_approved_at.isSome) ∧
    ((runOps ops e).status = EPOStatus.REJECTED → (runOps ops e).admin_approved_at = none) ∧
    (∀ more : List WfOp, (runOps ops e).status = EPOStatus.REJECTED →
      runOps more (runOps ops e) = runOps ops e) := by
  have hInv := inv_runOps ops e (createDraft_ok_inv pool creator ids sbc notes inotes asDraft e pool2 h)
  obtain ⟨i1, i2, i3⟩ := hInv
  refine ⟨i1, fun hr => (i3 (by simp [hr])).1, fun more hr => rejected_runOps more _ hr⟩

/-- Concrete one-line pool assigned to user u1, used by the witnesses. -/
def poolEx : List PoLine :=
  [{ po_id := "L1", line_amount := 5, is_assigned := true,
     assigned_to := some "u1", has_external_po := false }]

/-- The ExternalPO produced by a successful `createDraft` on `poolEx`. -/
def epoEx : ExternalPO :=
  { po_line_ids := ["L1"], assigned_to_sbc := "sbc", assignment_notes := "",
    internal_notes := "", estimated_total_amount := sumAmounts poolEx ["L1"],
    status := .DRAFT, pd_approved_by := none, pd_approved_at := none,
    admin_approved_by := none, admin_approved_at := none, rejection_reason := none,
    rejected_by := none, sbc_response_status := .PENDING, created_by := "u1",
    submitted_at := none }

/-- Witness for C2: the concrete createDraft success discharges the
reachability hypothesis. -/
theorem admin_approval_after_pd_approval_witness :
    ((runOps [] epoEx).admin_approved_at.isSome → (runOps [] epoEx).pd_approved_at.isSome) ∧
    ((runOps [] epoEx).status = EPOStatus.REJECTED → (runOps [] epoEx).admin_approved_at = none) ∧
    (∀ more : List WfOp, (runOps [] epoEx).status = EPOStatus.REJECTED →
      runOps more (runOps [] epoEx) = runOps [] epoEx) :=
  admin_approval_after_pd_approval poolEx "u1" ["L1"] "sbc" "" "" true epoEx
    (markExternal poolEx ["L1"]) [] rfl

/-! ## C5: respondApproval is guarded against double application -/

theorem respondApproval_state_error (e : ExternalPO) (actor : String) (caps : Capabilities)
    (level : ApprovalLevel) (action : ApprovalAction) (reason : Option String) (now : Nat)
    (hcap : hasLevelCap caps level = true) (hst : e.status ≠ expectedStatus level) :
    e.respondApproval actor caps level action reason now = .error .StateError := by
  unfold ExternalPO.respondApproval
  rw [if_pos hcap, if_neg hst]

theorem respondApproval_ok_facts (e : ExternalPO) (actor : String) (caps : Capabilities)
    (level : ApprovalLevel) (action : ApprovalAction) (reason : Option String) (now : Nat)
    (e2 : ExternalPO) (h : e.respondApproval actor caps level action reason now = .ok e2) :
    hasLevelCap caps level = true ∧ e2.status ≠ expectedStatus level := by
  cases action with
  | APPROVE =>
    cases level with
    | PD =>
      simp only [ExternalPO.respondApproval, expectedStatus, hasLevelCap] at h ⊢
      split_ifs at h with h1 h2
      injection h with h3
      subst h3
      exact ⟨h1, by simp⟩
    | ADMIN =>
      simp only [ExternalPO.respondApproval, expectedStatus, hasLevelCap] at h ⊢
      split_ifs at h with h1 h2
      injection h with h3
      subst h3
      exact ⟨h1, by simp⟩
  | REJECT =>
    cases level with
    | PD =>
      simp only [ExternalPO.respondApproval, expectedStatus, hasLevelCap] at h ⊢
      split_ifs at h with h1 h2 h3
      injection h with h4
      subst h4
      exact ⟨h1, by simp⟩
    | ADMIN =>
      simp only [ExternalPO.respondApproval, expectedStatus, hasLevelCap] at h ⊢
      split_ifs at h with h1 h2 h3
      injection h with h4
      subst h4
      exact ⟨h1, by simp⟩

/-- C5: once an ExternalPO has left the pending state matching a level,
a further respondApproval call at that level fails with StateError and
leaves the entity unchanged; in particular a second identical call
right after a successful one fails with StateError and changes
nothing. -/
theorem respond_approval_idempotent :
    (∀ (e : ExternalPO) (actor : String) (caps : Capabilities) (level : ApprovalLevel)
       (action : ApprovalAction) (reason : Option String) (now : Nat),
       hasLevelCap caps level = true → e.status ≠ expectedStatus level →
       e.respondApproval actor caps level action reason now = .error .StateError ∧
       runOp (WfOp.respond actor caps level action reason now) e = e) ∧
    (∀ (e : ExternalPO) (actor : String) (caps : Capabilities) (level : ApprovalLevel)
       (action : ApprovalAction) (reason : Option String) (now now2 : Nat) (e2 : ExternalPO),
       e.respondApproval actor caps level action reason now = .ok e2 →
       e2.respondApproval actor caps level action reason now2 = .error .StateError ∧
       runOp (WfOp.respond actor caps level action reason now2) e2 = e2) := by
  constructor
  · intro e actor caps level action reason now hcap hst
    have herr := respondApproval_state_error e actor caps level action reason now hcap hst
    refine ⟨herr, ?_⟩
    simp only [runOp, applyOp, herr]
  · intro e actor caps level action reason now now2 e2 h
    obtain ⟨hcap, hst⟩ := respondApproval_ok_facts e actor caps level action reason now e2 h
    have herr := respondApproval_state_error e2 actor caps level action reason now2 hcap hst
    refine ⟨herr, ?_⟩
    simp only [runOp, applyOp, herr]

/-- The entity `epoEx` after submission, used by the C5 witness. -/
def pendingPdEx : ExternalPO :=
  { epoEx with status := .PENDING_PD_APPROVAL, submitted_at := some 7 }

/-- The entity after a PD approval at time 8, used by the C5 witness. -/
def pendingAdminEx : ExternalPO :=
  { pendingPdEx with
    status := .PENDING_ADMIN_APPROVAL,
    pd_approved_by := some "pd1", pd_approved_at := some 8 }

/-- PD-level capabilities used by the witnesses. -/
def capsPdEx : Capabilities := ⟨true, false⟩

/-- Witness for C5: a concrete successful PD approval whose repetition
fails with StateError and leaves the entity unchanged. -/
theorem respond_approval_idempotent_witness :
    pendingAdminEx.respondApproval "pd1" capsPdEx ApprovalLevel.PD ApprovalAction.APPROVE none 9 =
      .error .StateError ∧
    runOp (WfOp.respond "pd1" capsPdEx ApprovalLevel.PD ApprovalAction.APPROVE none 9)
        pendingAdminEx = pendingAdminEx :=
  respond_approval_idempotent.2 pendingPdEx "pd1" capsPdEx
    ApprovalLevel.PD ApprovalAction.APPROVE none 8 9 pendingAdminEx
    (by simp [ExternalPO.respondApproval, hasLevelCap, expectedStatus, capsPdEx,
              pendingPdEx, pendingAdminEx, epoEx])

/-! ## C6: the SBC response stage guard, server and client side -/

theorem stringDataAppend (a b : String) : (a ++ b).data = a.data ++ b.data := rfl

theorem append_data_take2 (a x : String) (ha : 2 ≤ a.data.length) :
    (a ++ x).data.take 2 = a.data.take 2 := by
  rw [stringDataAppend, List.take_append_eq_append_take, Nat.sub_eq_zero_of_le ha,
    List.take_zero, List.append_nil]

theorem take2_clash_append (a x b y : String) (he : a ++ x = b ++ y)
    (ha : 2 ≤ a.data.length) (hb : 2 ≤ b.data.length)
    (h : a.data.take 2 ≠ b.data.take 2) : False := by
  apply h
  calc a.data.take 2 = (a ++ x).data.take 2 := (append_data_take2 a x ha).symm
    _ = (b ++ y).data.take 2 := by rw [he]
    _ = b.data.take 2 := append_data_take2 b y hb

theorem take2_clash_lit (a x b : String) (he : a ++ x = b)
    (ha : 2 ≤ a.data.length) (h : a.data.take 2 ≠ b.data.take 2) : False := by
  apply h
  calc a.data.take 2 = (a ++ x).data.take 2 := (append_data_take2 a x ha).symm
    _ = b.data.take 2 := by rw [he]

/-- The JSON fields of an approved External PO as interpolated by
`renderSBCWorkCard` in `frontend/js/approvals.js`.  The numeric and
date fields hold the already-formatted display strings (the source
formats them with `formatCurrency` and `formatDate`, locale- and
float-dependent helpers that are outside the embedding). -/
structure SbcCardView where
  id : String
  internal_po_id : String
  status : String
  po_line_count : String
  estimated_amount : String
  approved_at : String
  sbc_response_status : String
deriving DecidableEq

/-- The Accept Work button chunk of `renderSBCWorkCard`. -/
def sbcAcceptButton (id : String) : String :=
  "<button onclick=\"sbcAcceptWork('" ++ (id ++ "')\" class=\"btn-primary\">Accept Work</button>")

/-- Embedding of `renderSBCWorkCard(externalPO)`: the successive
`html +=` chunks in source order; the action buttons are appended only
when `sbc_response_status` is PENDING, otherwise the response badge is
shown. -/
def sbcChunks (v : SbcCardView) : List String :=
  ["<div class=\"card\">",
   "<h4>" ++ (v.internal_po_id ++ "</h4>"),
   "<p><strong>Status:</strong> <span class=\"badge badge-approved\">" ++ (v.status ++ "</span></p>"),
   "<p><strong>PO Line Count:</strong> " ++ (v.po_line_count ++ "</p>"),
   "<p><strong>Estimated Amount:</strong> " ++ (v.estimated_amount ++ "</p>"),
   "<p><strong>Approved:</strong> " ++ (v.approved_at ++ "</p>")]
  ++ (if v.sbc_response_status = "PENDING" then
       ["<div class=\"card-actions\">",
        sbcAcceptButton v.id,
        "<button onclick=\"sbcRejectWork('" ++ (v.id ++ "')\" class=\"btn-danger\">Reject Work</button>"),
        "<button onclick=\"viewExternalPODetails('" ++ (v.id ++ "')\">View Details</button>"),
        "</div>"]
      else
       ["<p><strong>SBC Response:</strong> <span class=\"badge badge-" ++
         (v.sbc_response_status.toLower ++ ("\">" ++ (v.sbc_response_status ++ "</span></p>")))])
  ++ ["</div>"]

/-- The rendered card is the concatenation of the chunks. -/
def renderSBCWorkCard (v : SbcCardView) : String :=
  String.join (sbcChunks v)

theorem sbcAcceptButton_mem_iff (v : SbcCardView) :
    sbcAcceptButton v.id ∈ sbcChunks v ↔ v.sbc_response_status = "PENDING" := by
  constructor
  · intro hm
    by_cases hp : v.sbc_response_status = "PENDING"
    · exact hp
    · exfalso
      unfold sbcAcceptButton at hm
      simp only [sbcChunks, hp, if_false, List.mem_append, List.mem_cons,
        List.mem_singleton, List.not_mem_nil, or_false] at hm
      rcases hm with ((h | h | h | h | h | h) | h) | h
      · exact take2_clash_lit _ _ _ h (by decide) (by decide)
      · exact take2_clash_append _ _ _ _ h (by decide) (by decide) (by decide)
      · exact take2_clash_append _ _ _ _ h (by decide) (by decide) (by decide)
      · exact take2_clash_append _ _ _ _ h (by decide) (by decide) (by decide)
      · exact take2_clash_append _ _ _ _ h (by decide) (by decide) (by decide)
      · exact take2_clash_append _ _ _ _ h (by decide) (by decide) (by decide)
      · exact take2_clash_append _ _ _ _ h (by decide) (by decide) (by decide)
      · exact take2_clash_lit _ _ _ h (by decide) (by decide)
  · intro hp
    simp [sbcChunks, hp, sbcAcceptButton]

/-- C6: the SBC respond operation fails with StateError unless the
entity is APPROVED with a PENDING response; a successful ACCEPT sets
the response to ACCEPTED and repeating the call fails with StateError;
and the client renders the Accept Work button exactly when the response
status is PENDING. -/
theorem sbc_respond_guarded :
    (∀ (e : ExternalPO) (actor : String) (action : SbcAction) (reason : Option String),
      actor = e.assigned_to_sbc →
      ¬(e.status = EPOStatus.APPROVED ∧ e.sbc_response_status = SbcStatus.PENDING) →
      e.sbcRespond actor action reason = .error .StateError) ∧
    (∀ (e : ExternalPO) (actor : String) (reason : Option String),
      actor = e.assigned_to_sbc → e.status = EPOStatus.APPROVED →
      e.sbc_response_status = SbcStatus.PENDING →
      e.sbcRespond actor .ACCEPT reason = .ok { e with sbc_response_status := .ACCEPTED } ∧
      ExternalPO.sbcRespond { e with sbc_response_status := SbcStatus.ACCEPTED } actor .ACCEPT reason
        = .error .StateError) ∧
    (∀ v : SbcCardView, sbcAcceptButton v.id ∈ sbcChunks v ↔ v.sbc_response_status = "PENDING") := by
  refine ⟨?_, ?_, sbcAcceptButton_mem_iff⟩
  · intro e actor action reason hact hng
    unfold ExternalPO.sbcRespond
    rw [if_pos hact, if_neg hng]
  · intro e actor reason hact hst hsbc
    constructor
    · unfold ExternalPO.sbcRespond
      rw [if_pos hact, if_pos ⟨hst, hsbc⟩]
    · unfold ExternalPO.sbcRespond
      rw [if_pos hact, if_neg (by simp)]

/-- The entity `pendingAdminEx` after Admin approval, used by the C6
witness. -/
def approvedEx : ExternalPO :=
  { pendingAdminEx with
    status := .APPROVED,
    admin_approved_by := some "ad1", admin_approved_at := some 9 }

/-- Witness for C6: the concrete approved entity accepts once and then
fails with StateError, and a concrete card view shows the button
exactly when PENDING. -/
theorem sbc_respond_guarded_witness :
    (approvedEx.sbcRespond "sbc" .ACCEPT none =
      .ok { approvedEx with sbc_response_status := .ACCEPTED } ∧
     ExternalPO.sbcRespond { approvedEx with sbc_response_status := SbcStatus.ACCEPTED }
        "sbc" .ACCEPT none = .error .StateError) ∧
    (sbcAcceptButton "E1" ∈ sbcChunks
      { id := "E1", internal_po_id := "IPO-1", status := "APPROVED", po_line_count := "1",
        estimated_amount := "5.00", approved_at := "today", sbc_response_status := "PENDING" } ↔
      ("PENDING" : String) = "PENDING") :=
  ⟨sbc_respond_guarded.2.1 approvedEx "sbc" none rfl rfl rfl,
   sbc_respond_guarded.2.2
     { id := "E1", internal_po_id := "IPO-1", status := "APPROVED", po_line_count := "1",
       estimated_amount := "5.00", approved_at := "today", sbc_response_status := "PENDING" }⟩

/-! ## C3: reject flows require a reason -/

/-- The JSON body POSTed by the reject flows: an action and a
rejection reason. -/
structure RejectRequest where
  action : String
  rejection_reason : String
deriving DecidableEq

/-- Embedding of `rejectExternalPO(externalPOId)` from
`frontend/js/approvals.js`: the prompt result is `none` when cancelled;
a falsy (cancelled or empty) reason returns without issuing the POST,
otherwise the REJECT body is sent. -/
def rejectExternalPO (promptResult : Option String) : Option RejectRequest :=
  match promptResult with
  | none => none
  | some r => if r = "" then none else some { action := "REJECT", rejection_reason := r }

/-- Embedding of `sbcRejectWork(externalPOId)` from
`frontend/js/approvals.js`: same guard, POSTing to the SBC respond
endpoint. -/
def sbcRejectWork (promptResult : Option String) : Option RejectRequest :=
  match promptResult with
  | none => none
  | some r => if r = "" then none else some { action := "REJECT", rejection_reason := r }

/-- Embedding of `respondToAssignment(assignmentId, action)` from
`frontend/js/assignments.js`: only the REJECT branch prompts for a
reason and returns without POSTing when it is falsy; other actions are
sent with an empty reason. -/
def respondToAssignment (action : String) (promptResult : Option String) : Option RejectRequest :=
  if action = "REJECT" then
    match promptResult with
    | none => none
    | some r => if r = "" then none else some { action := action, rejection_reason := r }
  else some { action := action, rejection_reason := "" }

/-- C3: a REJECT with a missing or empty reason is never sent by the
three client reject flows, and each of the three modelled respond
operations fails with ValidationError on a blank reason (under the
authorization and state conditions that would otherwise let it
proceed), recording nothing. -/
theorem reject_requires_reason :
    (∀ r : Option String, r = none ∨ r = some "" → rejectExternalPO r = none) ∧
    (∀ r : Option String, r = none ∨ r = some "" → sbcRejectWork r = none) ∧
    (∀ r : Option String, r = none ∨ r = some "" → respondToAssignment "REJECT" r = none) ∧
    (∀ (a : Assignment) (pool : List PoLine) (actor : String) (r : Option String),
      actor = a.assigned_to → a.status = AsgStatus.PENDING → blankReason r = true →
      Assignment.respond a pool actor .REJECT r = .error .ValidationError) ∧
    (∀ (e : ExternalPO) (actor : String) (caps : Capabilities) (level : ApprovalLevel)
       (r : Option String) (now : Nat),
      hasLevelCap caps level = true → e.status = expectedStatus level → blankReason r = true →
      e.respondApproval actor caps level .REJECT r now = .error .ValidationError) ∧
    (∀ (e : ExternalPO) (actor : String) (r : Option String),
      actor = e.assigned_to_sbc → e.status = EPOStatus.APPROVED →
      e.sbc_response_status = SbcStatus.PENDING → blankReason r = true →
      e.sbcRespond actor .REJECT r = .error .ValidationError) := by
  refine ⟨?_, ?_, ?_, ?_, ?_, ?_⟩
  · rintro r (rfl | rfl) <;> simp [rejectExternalPO]
  · rintro r (rfl | rfl) <;> simp [sbcRejectWork]
  · rintro r (rfl | rfl) <;> simp [respondToAssignment]
  · intro a pool actor r hact hst hb
    unfold Assignment.respond
    rw [if_pos hact, if_pos hst]
    simp only [hb, if_true]
  · intro e actor caps level r now hcap hst hb
    unfold ExternalPO.respondApproval
    rw [if_pos hcap, if_pos hst]
    simp only [hb, if_true]
  · intro e actor r hact hst hsbc hb
    unfold ExternalPO.sbcRespond
    rw [if_pos hact, if_pos ⟨hst, hsbc⟩]
    simp only [hb, if_true]

/-- A concrete PENDING assignment used by the witnesses. -/
def asgEx : Assignment :=
  { po_ids := ["L1", "L2"], assigned_by := "boss", assigned_to := "u1",
    notes := "", status := .PENDING, rejection_reason := none }

/-- Witness for C3: the guards fire on concrete blank reasons. -/
theorem reject_requires_reason_witness :
    rejectExternalPO none = none ∧
    sbcRejectWork (some "") = none ∧
    respondToAssignment "REJECT" (some "") = none ∧
    Assignment.respond asgEx poolEx "u1" .REJECT (some "") = .error .ValidationError ∧
    pendingPdEx.respondApproval "pd1" capsPdEx ApprovalLevel.PD .REJECT none 9 =
      .error .ValidationError ∧
    approvedEx.sbcRespond "sbc" .REJECT none = .error .ValidationError :=
  ⟨reject_requires_reason.1 none (Or.inl rfl),
   reject_requires_reason.2.1 (some "") (Or.inr rfl),
   reject_requires_reason.2.2.1 (some "") (Or.inr rfl),
   reject_requires_reason.2.2.2.1 asgEx poolEx "u1" (some "") rfl rfl rfl,
   reject_requires_reason.2.2.2.2.1 pendingPdEx "pd1" capsPdEx ApprovalLevel.PD none 9 rfl rfl rfl,
   reject_requires_reason.2.2.2.2.2 approvedEx "sbc" none rfl rfl rfl rfl⟩

/-! ## C4: empty selections are refused -/

/-- Split a character list at every comma, the semantics of the
JavaScript `split(',')`. -/
def splitCommaAux : List Char → List Char → List String
  | [], cur => [⟨cur.reverse⟩]
  | c :: rest, cur =>
    if c = ',' then ⟨cur.reverse⟩ :: splitCommaAux rest []
    else splitCommaAux rest (c :: cur)

/-- Split a string at every comma. -/
def splitComma (s : String) : List String :=
  splitCommaAux s.data []

/-- Remove leading and trailing whitespace, the semantics of the
JavaScript `trim()`. -/
def trimStr (s : String) : String :=
  ⟨((s.data.dropWhile (fun c => c.isWhitespace)).reverse.dropWhile
      (fun c => c.isWhitespace)).reverse⟩

/-- Embedding of the PO-id parsing in `createAssignment(event)` from
`frontend/js/assignments.js`: split on commas, trim, drop empties. -/
def parsePoIds (input : String) : List String :=
  ((splitComma input).map (fun id => trimStr id)).filter (fun id => id != "")

/-- The JSON body POSTed by `createAssignment`. -/
structure CreateAssignmentRequest where
  po_ids : List String
  assigned_to_user_id : String
  assignment_notes : String
deriving DecidableEq

/-- Embedding of `createAssignment(event)` from
`frontend/js/assignments.js`: an empty parsed id list shows an error
and returns without POSTing. -/
def createAssignment (poIdsInput : String) (userId : String) (notes : String) :
    Option CreateAssignmentRequest :=
  if (parsePoIds poIdsInput).length = 0 then none
  else some { po_ids := parsePoIds poIdsInput, assigned_to_user_id := userId,
              assignment_notes := notes }

/-- The JSON body POSTed by `createExternalPO`. -/
structure CreateExternalPORequest where
  po_lines : List SelEntry
  assigned_to_sbc_id : String
  assignment_notes : String
  internal_notes : String
  save_as_draft : Bool
deriving DecidableEq

/-- Embedding of `createExternalPO(event)` from the external-PO module:
an empty `selectedPOLines` alerts and returns without POSTing. -/
def createExternalPO (selected : List SelEntry) (sbcId : String) (notes : String)
    (internalNotes : String) (saveAsDraft : Bool) : Option CreateExternalPORequest :=
  if selected.length = 0 then none
  else some { po_lines := selected, assigned_to_sbc_id := sbcId,
              assignment_notes := notes, internal_notes := internalNotes,
              save_as_draft := saveAsDraft }

/-- C4: with an empty id list, the client create flows send nothing and
the modelled create operations fail with ValidationError, creating
nothing. -/
theorem empty_selection_refused :
    (∀ (input userId notes : String), parsePoIds input = [] →
      createAssignment input userId notes = none) ∧
    (∀ (sbcId notes internalNotes : String) (d : Bool),
      createExternalPO [] sbcId notes internalNotes d = none) ∧
    (∀ (pool : List PoLine) (assigner : String) (canAssign : Bool) (assignee notes : String),
      Assignment.create pool assigner canAssign [] assignee notes = .error .ValidationError) ∧
    (∀ (pool : List PoLine) (creator sbc notes internalNotes : String) (d : Bool),
      ExternalPO.createDraft pool creator [] sbc notes internalNotes d = .error .ValidationError) := by
  refine ⟨?_, ?_, ?_, ?_⟩
  · intro input userId notes hp
    unfold createAssignment
    rw [hp]
    simp
  · intro sbcId notes internalNotes d
    simp [createExternalPO]
  · intro pool assigner canAssign assignee notes
    simp [Assignment.create]
  · intro pool creator sbc notes internalNotes d
    simp [ExternalPO.createDraft]

/-- Witness for C4: a concrete input of separators and blanks parses to
the empty list and is refused. -/
theorem empty_selection_refused_witness :
    createAssignment " ,  ," "u2" "note" = none :=
  empty_selection_refused.1 " ,  ," "u2" "note" (by decide)

/-! ## C7: estimated_total_amount is a creation-time snapshot -/

theorem applyOp_ok_amount (op : WfOp) (e e2 : ExternalPO) (h : applyOp op e = .ok e2) :
    e2.estimated_total_amount = e.estimated_total_amount := by
  cases op with
  | submit actor now =>
    simp only [applyOp, ExternalPO.submit] at h
    split_ifs at h with h1 h2
    injection h with h3
    subst h3
    rfl
  | respond actor caps level action reason now =>
    cases action with
    | APPROVE =>
      cases level <;>
        (simp only [applyOp, ExternalPO.respondApproval, expectedStatus, hasLevelCap] at h
         split_ifs at h with h1 h2
         injection h with h3
         subst h3
         rfl)
    | REJECT =>
      cases level <;>
        (simp only [applyOp, ExternalPO.respondApproval, expectedStatus, hasLevelCap] at h
         split_ifs at h with h1 h2 h3
         injection h with h4
         subst h4
         rfl)
  | sbc actor action reason =>
    cases action with
    | ACCEPT =>
      simp only [applyOp, ExternalPO.sbcRespond] at h
      split_ifs at h with h1 h2
      injection h with h3
      subst h3
      rfl
    | REJECT =>
      simp only [applyOp, ExternalPO.sbcRespond] at h
      split_ifs at h with h1 h2 h3
      injection h with h4
      subst h4
      rfl

theorem runOps_amount (ops : List WfOp) (e : ExternalPO) :
    (runOps ops e).estimated_total_amount = e.estimated_total_amount := by
  unfold runOps
  induction ops generalizing e with
  | nil => rfl
  | cons op rest ih =>
    simp only [List.foldl_cons]
    rw [ih]
    unfold runOp
    cases hap : applyOp op e with
    | ok e2 => exact applyOp_ok_amount op e e2 hap
    | error err => rfl

/-- A merged PO-line row as loaded into the client's `allPOLinesData`
array: the fields used by the assignment modal's total. -/
structure POData where
  po_id : String
  po_number : String
  po_line_no : String
  line_amount : Rat
deriving DecidableEq

/-- The `line_amount` of the row with this id, zero when absent. -/
def lineAmountOf (allData : List POData) (id : String) : Rat :=
  match allData.find? (fun po => po.po_id == id) with
  | some pd => pd.line_amount
  | none => 0

/-- Embedding of the total computed by `showAssignmentModal()` in the
enhanced bulk-assignment module: for each selected line, look its row
up in `allPOLinesData` and add its truthy `line_amount`. -/
def modalTotalAmount (selected : List SelEntry) (allData : List POData) : Rat :=
  selected.foldl (fun acc s =>
    match allData.find? (fun po => po.po_id == s.po_id) with
    | some pd => if pd.line_amount ≠ 0 then acc + pd.line_amount else acc
    | none => acc) 0

theorem modalTotal_go (selected : List SelEntry) (allData : List POData) (acc : Rat) :
    selected.foldl (fun acc s =>
      match allData.find? (fun po => po.po_id == s.po_id) with
      | some pd => if pd.line_amount ≠ 0 then acc + pd.line_amount else acc
      | none => acc) acc =
    acc + (selected.map (fun s => lineAmountOf allData s.po_id)).sum := by
  induction selected generalizing acc with
  | nil => simp
  | cons s rest ih =>
    simp only [List.foldl_cons, List.map_cons, List.sum_cons]
    cases hf : allData.find? (fun po => po.po_id == s.po_id) with
    | none =>
      have hhead : lineAmountOf allData s.po_id = 0 := by simp [lineAmountOf, hf]
      simp only [hf]
      rw [ih, hhead]
      ring
    | some pd =>
      have hhead : lineAmountOf allData s.po_id = pd.line_amount := by simp [lineAmountOf, hf]
      simp only [hf]
      by_cases hz : pd.line_amount ≠ 0
      · rw [if_pos hz, ih, hhead]
        ring
      · rw [if_neg hz, ih, hhead]
        push_neg at hz
        rw [hz]
        ring

/-- C7: the created ExternalPO stores the sum of the referenced line
amounts as they are in the pool at creation time; no later workflow
operation ever changes it (a snapshot, not a live aggregation); and the
client's assignment modal computes the same sum of the selected lines'
amounts. -/
theorem estimated_total_snapshot :
    (∀ (pool : List PoLine) (creator : String) (ids : List String)
       (sbc notes internalNotes : String) (d : Bool) (e : ExternalPO) (pool2 : List PoLine),
      ExternalPO.createDraft pool creator ids sbc notes internalNotes d = .ok (e, pool2) →
      e.estimated_total_amount = sumAmounts pool ids) ∧
    (∀ (ops : List WfOp) (e : ExternalPO),
      (runOps ops e).estimated_total_amount = e.estimated_total_amount) ∧
    (∀ (selected : List SelEntry) (allData : List POData),
      modalTotalAmount selected allData =
        (selected.map (fun s => lineAmountOf allData s.po_id)).sum) := by
  refine ⟨?_, runOps_amount, ?_⟩
  · intro pool creator ids sbc notes internalNotes d e pool2 h
    simp only [ExternalPO.createDraft] at h
    split_ifs at h with h1 h2 h3 h4 h5 <;>
      (injection h with h6
       have he := congrArg Prod.fst h6
       simp at he
       subst he
       rfl)
  · intro selected allData
    unfold modalTotalAmount
    rw [modalTotal_go]
    ring

/-- Witness for C7: the concrete createDraft success discharges the
creation hypothesis, and the stored amount is the pool sum. -/
theorem estimated_total_snapshot_witness :
    epoEx.estimated_total_amount = sumAmounts poolEx ["L1"] :=
  estimated_total_snapshot.1 poolEx "u1" ["L1"] "sbc" "" "" true epoEx
    (markExternal poolEx ["L1"]) rfl

/-! ## C8: exclusive line claiming under racing creates -/

theorem findLine_map (pool : List PoLine) (f : PoLine → PoLine)
    (hf : ∀ l, (f l).po_id = l.po_id) (id : String) :
    findLine (pool.map f) id = (findLine pool id).map f := by
  unfold findLine
  rw [List.find?_map]
  have hp : ((fun l => l.po_id == id) ∘ f) = (fun l : PoLine => l.po_id == id) := by
    funext l
    simp [Function.comp, hf l]
  rw [hp]

theorem markExternal_po_id (ids : List String) (l : PoLine) :
    ((fun l => if l.po_id ∈ ids then { l with has_external_po := true } else l) l).po_id
      = l.po_id := by
  by_cases h : l.po_id ∈ ids <;> simp [h]

theorem markAssigned_po_id (ids : List String) (assignee : String) (l : PoLine) :
    ((fun l => if l.po_id ∈ ids then { l with is_assigned := true, assigned_to := some assignee }
               else l) l).po_id = l.po_id := by
  by_cases h : l.po_id ∈ ids <;> simp [h]

theorem findLine_markExternal (pool : List PoLine) (ids : List String) (id : String) :
    findLine (markExternal pool ids) id =
      (findLine pool id).map
        (fun l => if l.po_id ∈ ids then { l with has_external_po := true } else l) := by
  unfold markExternal
  exact findLine_map pool _ (markExternal_po_id ids) id

theorem findLine_markAssigned (pool : List PoLine) (ids : List String) (assignee : String)
    (id : String) :
    findLine (markAssigned pool ids assignee) id =
      (findLine pool id).map
        (fun l => if l.po_id ∈ ids then { l with is_assigned := true, assigned_to := some assignee }
                  else l) := by
  unfold markAssigned
  exact findLine_map pool _ (markAssigned_po_id ids assignee) id

theorem findLine_po_id (pool : List PoLine) (id : String) (l : PoLine)
    (h : findLine pool id = some l) : l.po_id = id := by
  unfold findLine at h
  have := List.find?_some h
  simpa using this

theorem createDraft_ok_parts (pool : List PoLine) (creator : String) (ids : List String)
    (sbc notes internalNotes : String) (d : Bool) (e : ExternalPO) (pool2 : List PoLine)
    (h : ExternalPO.createDraft pool creator ids sbc notes internalNotes d = .ok (e, pool2)) :
    ids ≠ [] ∧
    (ids.any (fun id => (findLine pool id).isNone)) = false ∧
    (ids.any (fun id => !(assignedToCreator pool creator id))) = false ∧
    (ids.any (fun id => hasExternal pool id)) = false ∧
    pool2 = markExternal pool ids := by
  simp only [ExternalPO.createDraft] at h
  split_ifs at h with h1 h2 h3 h4 h5
  all_goals
    (injection h with h6
     have hp := congrArg Prod.snd h6
     simp only at hp
     exact ⟨h1, by simpa using h2, by simpa using h3, by simpa using h4, hp.symm⟩)

theorem assignment_create_ok_parts (pool : List PoLine) (assigner : String) (canAssign : Bool)
    (ids : List String) (assignee notes : String) (a : Assignment) (pool2 : List PoLine)
    (h : Assignment.create pool assigner canAssign ids assignee notes = .ok (a, pool2)) :
    ids ≠ [] ∧
    (ids.any (fun id => (findLine pool id).isNone)) = false ∧
    (ids.any (fun id => lineTaken pool id)) = false ∧
    pool2 = markAssigned pool ids assignee := by
  simp only [Assignment.create] at h
  split_ifs at h with h1 h2 h3 h4
  all_goals
    (injection h with h6
     have hp := congrArg Prod.snd h6
     simp only at hp
     exact ⟨h1, by simpa using h2, by simpa using h3, hp.symm⟩)

/-- C8: when two create calls race over overlapping po_ids (modelled as
the two atomic orders of execution, each id existing in the pool), the
call that runs second always fails with ValidationError: a second
`createDraft` sees `has_external_po` already set, a second
`Assignment.create` sees the lines already assigned.  Hence at most one
of the two calls succeeds, in either interleaving. -/
theorem exclusive_line_claiming :
    (∀ (pool : List PoLine) (c1 c2 : String) (ids1 ids2 : List String)
       (s1 s2 n1 n2 i1 i2 : String) (d1 d2 : Bool) (e1 : ExternalPO) (pool1 : List PoLine)
       (x : String),
      x ∈ ids1 → x ∈ ids2 →
      (∀ id ∈ ids2, (findLine pool id).isSome) →
      ExternalPO.createDraft pool c1 ids1 s1 n1 i1 d1 = .ok (e1, pool1) →
      ExternalPO.createDraft pool1 c2 ids2 s2 n2 i2 d2 = .error .ValidationError) ∧
    (∀ (pool : List PoLine) (a1 a2 : String) (ca1 ca2 : Bool) (ids1 ids2 : List String)
       (u1 u2 n1 n2 : String) (asg : Assignment) (pool1 : List PoLine) (x : String),
      x ∈ ids1 → x ∈ ids2 →
      (∀ id ∈ ids2, (findLine pool id).isSome) →
      Assignment.create pool a1 ca1 ids1 u1 n1 = .ok (asg, pool1) →
      Assignment.create pool1 a2 ca2 ids2 u2 n2 = .error .ValidationError) := by
  constructor
  · intro pool c1 c2 ids1 ids2 s1 s2 n1 n2 i1 i2 d1 d2 e1 pool1 x hx1 hx2 hfound h1
    obtain ⟨hne1, hf1, ha1, he1, hpool⟩ :=
      createDraft_ok_parts pool c1 ids1 s1 n1 i1 d1 e1 pool1 h1
    subst hpool
    have hne2 : ids2 ≠ [] := List.ne_nil_of_mem hx2
    have hfound2 : (ids2.any (fun id => (findLine (markExternal pool ids1) id).isNone)) = false := by
      rw [List.any_eq_false]
      intro id hid
      rw [findLine_markExternal]
      obtain ⟨l, hl⟩ := Option.isSome_iff_exists.mp (hfound id hid)
      simp [hl]
    have hxext : hasExternal (markExternal pool ids1) x = true := by
      obtain ⟨l, hl⟩ := Option.isSome_iff_exists.mp (hfound x hx2)
      have hpo := findLine_po_id pool x l hl
      unfold hasExternal
      rw [findLine_markExternal, hl]
      simp [hpo, hx1]
    have hany : (ids2.any (fun id => hasExternal (markExternal pool ids1) id)) = true := by
      rw [List.any_eq_true]
      exact ⟨x, hx2, hxext⟩
    unfold ExternalPO.createDraft
    rw [if_neg hne2, if_neg (by simp [hfound2])]
    by_cases hc : (ids2.any (fun id => !(assignedToCreator (markExternal pool ids1) c2 id))) = true
    · rw [if_pos hc]
    · rw [if_neg hc, if_pos hany]
  · intro pool a1 a2 ca1 ca2 ids1 ids2 u1 u2 n1 n2 asg pool1 x hx1 hx2 hfound h1
    obtain ⟨hne1, hf1, ht1, hpool⟩ :=
      assignment_create_ok_parts pool a1 ca1 ids1 u1 n1 asg pool1 h1
    subst hpool
    have hne2 : ids2 ≠ [] := List.ne_nil_of_mem hx2
    have hfound2 : (ids2.any (fun id => (findLine (markAssigned pool ids1 u1) id).isNone)) = false := by
      rw [List.any_eq_false]
      intro id hid
      rw [findLine_markAssigned]
      obtain ⟨l, hl⟩ := Option.isSome_iff_exists.mp (hfound id hid)
      simp [hl]
    have hxtaken : lineTaken (markAssigned pool ids1 u1) x = true := by
      obtain ⟨l, hl⟩ := Option.isSome_iff_exists.mp (hfound x hx2)
      have hpo := findLine_po_id pool x l hl
      unfold lineTaken
      rw [findLine_markAssigned, hl]
      simp [hpo, hx1]
    have hany : (ids2.any (fun id => lineTaken (markAssigned pool ids1 u1) id)) = true := by
      rw [List.any_eq_true]
      exact ⟨x, hx2, hxtaken⟩
    unfold Assignment.create
    rw [if_neg hne2, if_neg (by simp [hfound2]), if_pos hany]

/-- A two-line pool in which both lines are free, used by the C8
witness. -/
def freePoolEx : List PoLine :=
  [{ po_id := "L1", line_amount := 5, is_assigned := false,
     assigned_to := none, has_external_po := false },
   { po_id := "L2", line_amount := 7, is_assigned := false,
     assigned_to := none, has_external_po := false }]

/-- Witness for C8: two concrete Assignment.create calls over the
overlapping id L1; the first succeeds, so the second fails with
ValidationError. -/
theorem exclusive_line_claiming_witness :
    Assignment.create (markAssigned freePoolEx ["L1"] "u1") "boss2" true ["L1", "L2"] "u2" "" =
      .error .ValidationError :=
  exclusive_line_claiming.2 freePoolEx "boss1" "boss2" true true ["L1"] ["L1", "L2"] "u1" "u2"
    "" ""
    { po_ids := ["L1"], assigned_by := "boss1", assigned_to := "u1", notes := "",
      status := .PENDING, rejection_reason := none }
    (markAssigned freePoolEx ["L1"] "u1") "L1" (by decide) (by decide) (by decide) rfl
